import Mathlib

/-!
Shallow embedding of the Titan matching-engine core
(crates/titan-core: fixed.rs, order.rs, pool.rs, level.rs, book.rs, engine.rs)
and of the SPSC ring (crates/titan-ring/src/lib.rs), together with theorems
settling the specification claims.

Modelling conventions:
* `u64`/`u32`/`u16` values are `Nat`; Rust `saturating_sub` on unsigned
  integers coincides with truncated `Nat` subtraction, and `saturating_add`
  is written explicitly with the `u64::MAX` cap.
* An `OrderHandle` is a `Nat`; the reserved invalid value is `u32::MAX`.
* The pool's order slab is a function `Nat → Option Order`; `none` stands
  for a slot whose bytes were never written (`MaybeUninit` before `insert`).
  `OrderPool.get` yields `none` exactly when Rust would panic (index out of
  bounds) or read uninitialised memory; engine operations propagate this as
  an outer `none` ("panic") through `Option`.
* A `PriceLevel`'s circular buffer of handles (head/tail indices modulo
  `MAX_ORDERS_PER_LEVEL`) is abstracted as the FIFO list of its queued
  handles, front first; `push_back` enforces the same capacity bound, so the
  list never exceeds the buffer and the abstraction is exact.
* A `BookSide`'s dense `Box<[Option<PriceLevel>; MAX_LEVELS]>` array is an
  association list from slot index to the levels that are `Some`.
* The engine's unbounded matching loop is given explicit fuel; every
  submission uses `pool.capacity + MAX_LEVELS + 2`, which exceeds the
  loop's possible iteration count (each iteration either zeroes the taker,
  removes a pool entry, or strictly advances `best_idx` in one direction).
-/

namespace Titan

/-- `u64::MAX`. -/
def U64MAX : Nat := 18446744073709551615

/-- `2^32`, the modulus of `u32` arithmetic. -/
def U32MOD : Nat := 4294967296

/-- Saturating `u64` addition (`u64::saturating_add`). -/
def satAdd (a b : Nat) : Nat := min (a + b) U64MAX

/-- `Price::TICK_SIZE` (fixed.rs). -/
def TICK_SIZE : Nat := 100

namespace Price

/-- `Price::from_ticks`: `ticks.saturating_mul(TICK_SIZE)` (fixed.rs). -/
def fromTicks (ticks : Nat) : Nat := min (ticks * TICK_SIZE) U64MAX

/-- `Price::to_ticks`: `self.0 / TICK_SIZE` (fixed.rs). -/
def toTicks (p : Nat) : Nat := p / TICK_SIZE

end Price

/-- `Side` (order.rs). -/
inductive Side where
  | Buy
  | Sell
deriving DecidableEq, Repr

/-- `Side::opposite` (order.rs). -/
def Side.opposite : Side → Side
  | .Buy => .Sell
  | .Sell => .Buy

/-- `OrderType` (order.rs). -/
inductive OrderType where
  | Limit
  | IOC
  | FOK
  | PostOnly
deriving DecidableEq, Repr

/-- The `Order` record (order.rs); the 17 padding bytes carry no data and
are omitted. -/
structure Order where
  price : Nat
  remaining_qty : Nat
  order_id : Nat
  timestamp : Nat
  original_qty : Nat
  symbol : Nat
  side : Side
  order_type : OrderType
  flags : Nat
deriving DecidableEq, Repr

/-- `Order::new` (order.rs). -/
def Order.new (order_id symbol : Nat) (side : Side) (order_type : OrderType)
    (price qty timestamp : Nat) : Order :=
  { order_id := order_id, symbol := symbol, side := side,
    order_type := order_type, price := price, original_qty := qty,
    remaining_qty := qty, timestamp := timestamp, flags := 0 }

/-- `Order::is_filled` (order.rs). -/
def Order.isFilled (o : Order) : Bool := o.remaining_qty = 0

/-- `Order::fill`: `remaining_qty.saturating_sub(qty)` (order.rs). -/
def Order.fillBy (o : Order) (qty : Nat) : Order :=
  { o with remaining_qty := o.remaining_qty - qty }

/-- `Order::filled_qty`: `original_qty.0 - remaining_qty.0` (order.rs).
For engine-constructed orders `remaining_qty ≤ original_qty`, where plain
`u64` subtraction and truncated `Nat` subtraction agree. -/
def Order.filledQty (o : Order) : Nat := o.original_qty - o.remaining_qty

/-- `OrderHandle::INVALID`, i.e. `u32::MAX` (pool.rs). -/
def INVALID_HANDLE : Nat := 4294967295

/-- `OrderHandle::is_valid` (pool.rs). -/
def handleIsValid (h : Nat) : Bool := h ≠ INVALID_HANDLE

/-- `OrderPool` (pool.rs). `slots` is the `MaybeUninit<Order>` slab
(`none` = never written); `free_list` is the LIFO free stack with the list
head as the top of the `Vec` (the source populates `(0..capacity).rev()`,
so slot 0 is on top initially). -/
structure OrderPool where
  slots : Nat → Option Order
  free_list : List Nat
  capacity : Nat
  active_count : Nat

/-- `OrderPool::with_capacity` / `OrderPool::new` (pool.rs): slab of
uninitialised slots, free stack holding every index with 0 on top. -/
def OrderPool.withCapacity (capacity : Nat) : OrderPool :=
  { slots := fun _ => none, free_list := List.range capacity,
    capacity := capacity, active_count := 0 }

/-- `OrderPool::allocate` (pool.rs): pop the free stack. -/
def OrderPool.allocate (p : OrderPool) : Option (Nat × OrderPool) :=
  match p.free_list with
  | [] => none
  | h :: t =>
    some (h, { p with free_list := t, active_count := p.active_count + 1 })

/-- `OrderPool::deallocate` (pool.rs): push onto the free stack and
decrement `active_count`. The decrement is a plain `u32` subtraction:
the debug assertions (out-of-range handle, double-free) are release
no-ops, and in release a decrement at `active_count = 0` wraps to
`u32::MAX`, modelled by the explicit `% 2^32`. -/
def OrderPool.deallocate (p : OrderPool) (h : Nat) : OrderPool :=
  { p with free_list := h :: p.free_list,
           active_count := (p.active_count + U32MOD - 1) % U32MOD }

/-- `OrderPool::get` (pool.rs): `none` when Rust would panic on the slice
index (handle out of range) or read uninitialised slot bytes. -/
def OrderPool.get (p : OrderPool) (h : Nat) : Option Order :=
  if h < p.capacity then p.slots h else none

/-- `OrderPool::insert` (pool.rs): write the order into slot `h` (callers
pass handles obtained from `allocate`, hence in range). -/
def OrderPool.insert (p : OrderPool) (h : Nat) (o : Order) : OrderPool :=
  { p with slots := fun i => if i = h then some o else p.slots i }

/-- `MAX_ORDERS_PER_LEVEL` (level.rs). -/
def MAX_ORDERS_PER_LEVEL : Nat := 1024

/-- `PriceLevel` (level.rs): the circular buffer of queued handles is
abstracted as the FIFO list `orders` (front first); `order_count` is its
length. -/
structure PriceLevel where
  total_qty : Nat
  orders : List Nat
deriving DecidableEq, Repr

/-- `PriceLevel::new` (level.rs). -/
def PriceLevel.new : PriceLevel := { total_qty := 0, orders := [] }

/-- `PriceLevel::is_empty`: `order_count == 0` (level.rs). -/
def PriceLevel.isEmpty (l : PriceLevel) : Bool := l.orders.isEmpty

/-- `PriceLevel::is_full` (level.rs). -/
def PriceLevel.isFull (l : PriceLevel) : Bool :=
  MAX_ORDERS_PER_LEVEL ≤ l.orders.length

/-- `PriceLevel::push_back` (level.rs): `none` when the level is full
(the source returns `false` without mutating). -/
def PriceLevel.pushBack (l : PriceLevel) (h qty : Nat) : Option PriceLevel :=
  if l.isFull then none
  else some { total_qty := satAdd l.total_qty qty, orders := l.orders ++ [h] }

/-- `PriceLevel::front` (level.rs). -/
def PriceLevel.front (l : PriceLevel) : Option Nat := l.orders.head?

/-- `PriceLevel::pop_front` (level.rs): removes the head handle; does NOT
adjust `total_qty` (the engine does quantity bookkeeping). -/
def PriceLevel.popFront (l : PriceLevel) : Option (Nat × PriceLevel) :=
  match l.orders with
  | [] => none
  | h :: t => some (h, { l with orders := t })

/-- `PriceLevel::reduce_qty`: saturating subtraction (level.rs). -/
def PriceLevel.reduceQty (l : PriceLevel) (q : Nat) : PriceLevel :=
  { l with total_qty := l.total_qty - q }

/-- `MAX_LEVELS` (book.rs). -/
def MAX_LEVELS : Nat := 65536

/-- Lookup in the association list representing the dense level array:
`levels[idx]` (book.rs). -/
def lookupLevel : List (Nat × PriceLevel) → Nat → Option PriceLevel
  | [], _ => none
  | (k, l) :: t, idx => if k = idx then some l else lookupLevel t idx

/-- Array store `levels[idx] = Some(level)`: replace the entry if the key
is present, otherwise add it. -/
def setLevel : List (Nat × PriceLevel) → Nat → PriceLevel →
    List (Nat × PriceLevel)
  | [], idx, lvl => [(idx, lvl)]
  | (k, l) :: t, idx, lvl =>
    if k = idx then (idx, lvl) :: t else (k, l) :: setLevel t idx lvl

/-- Array store `levels[idx] = None` (book.rs `find_next_best`). -/
def removeLevel : List (Nat × PriceLevel) → Nat → List (Nat × PriceLevel)
  | [], _ => []
  | (k, l) :: t, idx =>
    if k = idx then t else (k, l) :: removeLevel t idx

/-- `BookSide` (book.rs). `levels` is the association list standing for the
dense `MAX_LEVELS` array of `Option<PriceLevel>`. -/
structure BookSide where
  levels : List (Nat × PriceLevel)
  best_idx : Option Nat
  side : Side
  base_price : Nat
  order_count : Nat
  total_qty : Nat
deriving DecidableEq, Repr

/-- `BookSide::new` (book.rs). -/
def BookSide.mkSide (side : Side) (base_price : Nat) : BookSide :=
  { levels := [], best_idx := none, side := side, base_price := base_price,
    order_count := 0, total_qty := 0 }

/-- `BookSide::price_to_idx` (book.rs). -/
def BookSide.priceToIdx (s : BookSide) (price : Nat) : Option Nat :=
  if price < s.base_price then none
  else
    let idx := (price - s.base_price) / TICK_SIZE
    if idx < MAX_LEVELS then some idx else none

/-- `BookSide::idx_to_price` (book.rs). -/
def BookSide.idxToPrice (s : BookSide) (idx : Nat) : Nat :=
  s.base_price + idx * TICK_SIZE

/-- `BookSide::update_best_after_add` (book.rs). -/
def BookSide.updateBestAfterAdd (s : BookSide) (newIdx : Nat) : Option Nat :=
  match s.best_idx with
  | none => some newIdx
  | some current =>
    let isBetter :=
      match s.side with
      | .Buy => decide (current < newIdx)
      | .Sell => decide (newIdx < current)
    if isBetter then some newIdx else some current

/-- `BookSide::add_order` (book.rs): `none` when the source returns
`false` (price out of range, or the level's queue is full). The source
reads the order to enqueue back out of the pool slot just written; that
read returns exactly the argument order. -/
def BookSide.addOrder (s : BookSide) (h : Nat) (o : Order) : Option BookSide :=
  match s.priceToIdx o.price with
  | none => none
  | some idx =>
    let lvl := (lookupLevel s.levels idx).getD PriceLevel.new
    match lvl.pushBack h o.remaining_qty with
    | none => none
    | some lvl2 =>
      some { s with levels := setLevel s.levels idx lvl2,
                    order_count := s.order_count + 1,
                    total_qty := satAdd s.total_qty o.remaining_qty,
                    best_idx := s.updateBestAfterAdd idx }

/-- `BookSide::best_level` (book.rs). -/
def BookSide.bestLevel (s : BookSide) : Option PriceLevel :=
  match s.best_idx with
  | none => none
  | some idx => lookupLevel s.levels idx

/-- `BookSide::best_price` (book.rs). -/
def BookSide.bestPrice (s : BookSide) : Option Nat :=
  s.best_idx.map s.idxToPrice

/-- `BookSide::would_match` (book.rs). -/
def BookSide.wouldMatch (s : BookSide) (price : Nat) (incoming : Side) : Bool :=
  match s.best_idx with
  | some bi =>
    let bp := s.idxToPrice bi
    match incoming with
    | .Buy => decide (bp ≤ price)
    | .Sell => decide (price ≤ bp)
  | none => false

/-- Is the level at `i` present and non-empty
(`levels[idx].as_ref().map_or(false, |l| !l.is_empty())`, book.rs)? -/
def nonEmptyAt (lvls : List (Nat × PriceLevel)) (i : Nat) : Bool :=
  match lookupLevel lvls i with
  | some l => !l.isEmpty
  | none => false

/-- The bid-side scan of `find_next_best`: first non-empty level at index
`i`, `i-1`, …, `0` (the source iterates `(0..current).rev()`). -/
def scanDown (lvls : List (Nat × PriceLevel)) : Nat → Option Nat
  | 0 => if nonEmptyAt lvls 0 then some 0 else none
  | j + 1 =>
    if nonEmptyAt lvls (j + 1) then some (j + 1) else scanDown lvls j

/-- The ask-side scan of `find_next_best`: first non-empty level at index
`i`, `i+1`, … within `count` further slots (the source iterates
`(current + 1)..MAX_LEVELS`). -/
def scanUp (lvls : List (Nat × PriceLevel)) : Nat → Nat → Option Nat
  | 0, _ => none
  | count + 1, i =>
    if nonEmptyAt lvls i then some i else scanUp lvls count (i + 1)

/-- `BookSide::find_next_best` (book.rs): if the current best level is
absent or empty, clear its slot and scan away from it (downward for bids,
upward for asks); otherwise leave the side unchanged. -/
def BookSide.findNextBest (s : BookSide) : BookSide :=
  match s.best_idx with
  | none => s
  | some current =>
    let exhausted :=
      match lookupLevel s.levels current with
      | some l => l.isEmpty
      | none => true
    if exhausted then
      let lvls := removeLevel s.levels current
      let nb :=
        match s.side with
        | .Buy => if current = 0 then none else scanDown lvls (current - 1)
        | .Sell => scanUp lvls (MAX_LEVELS - (current + 1)) (current + 1)
      { s with levels := lvls, best_idx := nb }
    else s

/-- `BookSide::reduce_qty`: saturating subtraction (book.rs). -/
def BookSide.reduceQty (s : BookSide) (q : Nat) : BookSide :=
  { s with total_qty := s.total_qty - q }

/-- `BookSide::decrement_order_count`: saturating subtraction (book.rs). -/
def BookSide.decOrderCount (s : BookSide) : BookSide :=
  { s with order_count := s.order_count - 1 }

/-- `BookSide::is_empty` (book.rs): `best_idx.is_none()`. -/
def BookSide.sideIsEmpty (s : BookSide) : Bool := s.best_idx.isNone

/-- `OrderBook` (book.rs). -/
structure OrderBook where
  bids : BookSide
  asks : BookSide
  sequence : Nat
deriving DecidableEq, Repr

/-- `OrderBook::new` (book.rs). -/
def OrderBook.mkBook (base_price : Nat) : OrderBook :=
  { bids := BookSide.mkSide .Buy base_price,
    asks := BookSide.mkSide .Sell base_price,
    sequence := 0 }

/-- `OrderBook::next_sequence` (book.rs): increment and return. -/
def OrderBook.nextSequence (b : OrderBook) : Nat × OrderBook :=
  (b.sequence + 1, { b with sequence := b.sequence + 1 })

/-- `OrderBook::side` / `side_mut` selection (book.rs). -/
def OrderBook.sideOf (b : OrderBook) : Side → BookSide
  | .Buy => b.bids
  | .Sell => b.asks

/-- Store back the given side (the effect of mutating through
`side_mut`). -/
def OrderBook.withSide (b : OrderBook) : Side → BookSide → OrderBook
  | .Buy, s => { b with bids := s }
  | .Sell, s => { b with asks := s }

/-- `OrderBook::is_empty` (book.rs). -/
def OrderBook.bookIsEmpty (b : OrderBook) : Bool :=
  b.bids.sideIsEmpty && b.asks.sideIsEmpty

/-- `MAX_FILLS_PER_ORDER` (engine.rs). -/
def MAX_FILLS_PER_ORDER : Nat := 64

/-- The `Fill` record (engine.rs). -/
structure Fill where
  maker_order_id : Nat
  taker_order_id : Nat
  price : Nat
  quantity : Nat
  maker_side : Side
  symbol : Nat
  timestamp : Nat
deriving DecidableEq, Repr

/-- `RejectReason` (engine.rs). -/
inductive RejectReason where
  | InvalidPrice
  | InvalidQuantity
  | PoolExhausted
  | BookFull
  | PostOnlyWouldMatch
  | SymbolNotFound
  | InsufficientLiquidity
deriving DecidableEq, Repr

/-- `OrderResult` (engine.rs). -/
inductive OrderResult where
  | Filled (fills : List Fill)
  | PartialFill (fills : List Fill) (resting_qty : Nat) (handle : Nat)
  | Resting (handle : Nat)
  | Rejected (reason : RejectReason)
  | Cancelled (filled_qty : Nat) (fills : List Fill)
deriving DecidableEq, Repr

/-- `MatchingEngine` (engine.rs). -/
structure MatchingEngine where
  book : OrderBook
  pool : OrderPool
  symbol : Nat

/-- `MatchingEngine::new` (engine.rs): pool capacity `2^pool_bits`. -/
def MatchingEngine.mkEngine (symbol pool_bits base_price : Nat) :
    MatchingEngine :=
  { book := OrderBook.mkBook base_price,
    pool := OrderPool.withCapacity (2 ^ pool_bits),
    symbol := symbol }

/-- `MatchingEngine::can_fill_completely` (engine.rs): FOK precheck that
inspects only the best opposite level. -/
def MatchingEngine.canFillCompletely (e : MatchingEngine) (o : Order) : Bool :=
  let opp :=
    match o.side with
    | .Buy => e.book.asks
    | .Sell => e.book.bids
  match opp.bestPrice with
  | some bp =>
    let crosses :=
      match o.side with
      | .Buy => decide (bp ≤ o.price)
      | .Sell => decide (o.price ≤ bp)
    if crosses then
      match opp.bestLevel with
      | some lvl => decide (o.remaining_qty ≤ lvl.total_qty)
      | none => false
    else false
  | none => false

/-- `MatchingEngine::match_one_at_best` (engine.rs). The outer `none` is a
Rust panic or uninitialised read on `pool.get_mut(maker_handle)`; the inner
`none` is the source's "level exhausted" return. On a fill the taker is
updated in place (returned here alongside), the maker slot is rewritten, the
best level's `total_qty` is reduced, a fully-filled maker is popped and
deallocated with the side's order count decremented, and the side's
`total_qty` is reduced. -/
def MatchingEngine.matchOneAtBest (e : MatchingEngine) (maker_side : Side)
    (taker : Order) (exec_price : Nat) :
    Option (Option Fill × Order × MatchingEngine) :=
  let bs := e.book.sideOf maker_side
  match bs.bestLevel with
  | none => some (none, taker, e)
  | some best_level =>
    if best_level.isEmpty then some (none, taker, e)
    else
      match best_level.front with
      | none => some (none, taker, e)
      | some maker_handle =>
        match e.pool.get maker_handle with
        | none => none
        | some maker =>
          let fill_qty := min taker.remaining_qty maker.remaining_qty
          let fill : Fill :=
            { maker_order_id := maker.order_id,
              taker_order_id := taker.order_id,
              price := exec_price,
              quantity := fill_qty,
              maker_side := maker.side,
              symbol := taker.symbol,
              timestamp := taker.timestamp }
          let taker2 := taker.fillBy fill_qty
          let maker2 := maker.fillBy fill_qty
          let pool1 := e.pool.insert maker_handle maker2
          let stepped :=
            match bs.best_idx with
            | none => (bs, pool1)
            | some bi =>
              match lookupLevel bs.levels bi with
              | none => (bs, pool1)
              | some lvl =>
                let lvl1 := lvl.reduceQty fill_qty
                if maker2.isFilled then
                  let lvl2 :=
                    match lvl1.popFront with
                    | some (_, rest) => rest
                    | none => lvl1
                  ({ bs with levels := setLevel bs.levels bi lvl2,
                             order_count := bs.order_count - 1 },
                   pool1.deallocate maker_handle)
                else
                  ({ bs with levels := setLevel bs.levels bi lvl1 }, pool1)
          let bs2 := stepped.1.reduceQty fill_qty
          some (some fill, taker2,
            { e with book := e.book.withSide maker_side bs2,
                     pool := stepped.2 })

/-- `MatchingEngine::match_order` (engine.rs), with explicit fuel for the
source's unbounded `loop`. A produced fill is recorded only while the
taker's fill sequence has not reached `MAX_FILLS_PER_ORDER`
(`if !fills.is_full()`); when the best level is exhausted the opposite
side's `find_next_best` runs and the loop continues. -/
def MatchingEngine.matchLoop :
    Nat → MatchingEngine → Order → List Fill →
    Option (MatchingEngine × Order × List Fill)
  | 0, e, o, fills => some (e, o, fills)
  | fuel + 1, e, o, fills =>
    if o.remaining_qty = 0 then some (e, o, fills)
    else
      let opp :=
        match o.side with
        | .Buy => e.book.asks
        | .Sell => e.book.bids
      match opp.bestPrice with
      | none => some (e, o, fills)
      | some bp =>
        let crosses :=
          match o.side with
          | .Buy => decide (bp ≤ o.price)
          | .Sell => decide (o.price ≤ bp)
        if crosses then
          match e.matchOneAtBest o.side.opposite o bp with
          | none => none
          | some (some fill, o2, e2) =>
            let fills2 :=
              if fills.length < MAX_FILLS_PER_ORDER then fills ++ [fill]
              else fills
            MatchingEngine.matchLoop fuel e2 o2 fills2
          | some (none, o2, e2) =>
            let os := o.side.opposite
            let e3 :=
              { e2 with
                book := e2.book.withSide os (e2.book.sideOf os).findNextBest }
            MatchingEngine.matchLoop fuel e3 o2 fills
        else some (e, o, fills)

/-- The fuel passed to `matchLoop` by `submitOrder`; it dominates the
source loop's iteration count (each iteration either terminates, frees a
pool slot, or advances `best_idx` strictly in the scan direction). -/
def MatchingEngine.loopFuel (e : MatchingEngine) : Nat :=
  e.pool.capacity + MAX_LEVELS + 2

/-- `MatchingEngine::add_to_book` (engine.rs): allocate, insert, then
`add_order`; on `add_order` failure the slot is deallocated and `none` is
returned. The pair carries the engine as mutated by the attempt. -/
def MatchingEngine.addToBook (e : MatchingEngine) (o : Order) :
    Option Nat × MatchingEngine :=
  match e.pool.allocate with
  | none => (none, e)
  | some (h, pool1) =>
    let pool2 := pool1.insert h o
    let bs := e.book.sideOf o.side
    match bs.addOrder h o with
    | some bs2 =>
      (some h, { e with book := e.book.withSide o.side bs2, pool := pool2 })
    | none => (none, { e with pool := pool2.deallocate h })

/-- `MatchingEngine::submit_order` (engine.rs): validation, timestamp
stamping, PostOnly and FOK prechecks, the matching loop, and post-match
disposition. Outer `none` is a propagated panic from the loop. -/
def MatchingEngine.submitOrder (e : MatchingEngine) (o : Order)
    (timestamp : Nat) : Option (OrderResult × MatchingEngine) :=
  if o.remaining_qty = 0 then
    some (.Rejected .InvalidQuantity, e)
  else if o.price = 0 ∧ o.order_type ≠ OrderType.IOC then
    some (.Rejected .InvalidPrice, e)
  else
    let o1 := { o with timestamp := timestamp }
    if o1.order_type = OrderType.PostOnly ∧
        (e.book.sideOf o1.side.opposite).wouldMatch o1.price o1.side then
      some (.Rejected .PostOnlyWouldMatch, e)
    else if o1.order_type = OrderType.FOK ∧ ¬ e.canFillCompletely o1 then
      some (.Rejected .InsufficientLiquidity, e)
    else
      match MatchingEngine.matchLoop e.loopFuel e o1 [] with
      | none => none
      | some (e2, o2, fills) =>
        if o2.remaining_qty = 0 then some (.Filled fills, e2)
        else
          match o2.order_type with
          | .IOC => some (.Cancelled o2.filledQty fills, e2)
          | .FOK => some (.Cancelled o2.filledQty fills, e2)
          | .Limit | .PostOnly =>
            match e2.addToBook o2 with
            | (some h, e3) =>
              if fills.isEmpty then some (.Resting h, e3)
              else some (.PartialFill fills o2.remaining_qty h, e3)
            | (none, e3) => some (.Rejected .PoolExhausted, e3)

/-- `MatchingEngine::cancel_order` (engine.rs): an invalid handle returns
`None`; otherwise the slot is read (outer `none` when Rust would panic on
an out-of-range index or read an uninitialised slot), the level quantity at
the order's price is reduced, the side's aggregate quantity and order count
are reduced, and the slot is pushed back onto the free stack. -/
def MatchingEngine.cancelOrder (e : MatchingEngine) (handle : Nat) :
    Option (Option Order × MatchingEngine) :=
  if handle = INVALID_HANDLE then some (none, e)
  else
    match e.pool.get handle with
    | none => none
    | some o =>
      let bs := e.book.sideOf o.side
      let bs1 :=
        match bs.priceToIdx o.price with
        | some idx =>
          match lookupLevel bs.levels idx with
          | some lvl =>
            { bs with
              levels := setLevel bs.levels idx (lvl.reduceQty o.remaining_qty) }
          | none => bs
        | none => bs
      let bs2 := (bs1.reduceQty o.remaining_qty).decOrderCount
      some (some o,
        { e with book := e.book.withSide o.side bs2,
                 pool := e.pool.deallocate handle })

/-- Run one submission, keeping only the resulting engine (the state left
behind by `submit_order`; on a panic the prior state is kept, which no
scenario below exercises). -/
def stepEngine (e : MatchingEngine) (o : Order) (ts : Nat) : MatchingEngine :=
  match e.submitOrder o ts with
  | some (_, e2) => e2
  | none => e

/-- Projection of the result of a submission. -/
def resultOf (e : MatchingEngine) (o : Order) (ts : Nat) :
    Option OrderResult :=
  (e.submitOrder o ts).map Prod.fst

/-- The fills carried by an `OrderResult`. -/
def OrderResult.fillsOf : OrderResult → List Fill
  | .Filled fills => fills
  | .PartialFill fills _ _ => fills
  | .Cancelled _ fills => fills
  | .Resting _ => []
  | .Rejected _ => []

/-- Specification-side comparator for the matching loop: identical to
`matchLoop` except that every executed fill is recorded, with no capacity
cap. Comparing the two states the spec sentence that fills beyond
`MAX_FILLS_PER_ORDER` are still executed and only their records are
dropped. -/
def MatchingEngine.matchLoopU :
    Nat → MatchingEngine → Order → List Fill →
    Option (MatchingEngine × Order × List Fill)
  | 0, e, o, fills => some (e, o, fills)
  | fuel + 1, e, o, fills =>
    if o.remaining_qty = 0 then some (e, o, fills)
    else
      let opp :=
        match o.side with
        | .Buy => e.book.asks
        | .Sell => e.book.bids
      match opp.bestPrice with
      | none => some (e, o, fills)
      | some bp =>
        let crosses :=
          match o.side with
          | .Buy => decide (bp ≤ o.price)
          | .Sell => decide (o.price ≤ bp)
        if crosses then
          match e.matchOneAtBest o.side.opposite o bp with
          | none => none
          | some (some fill, o2, e2) =>
            MatchingEngine.matchLoopU fuel e2 o2 (fills ++ [fill])
          | some (none, o2, e2) =>
            let os := o.side.opposite
            let e3 :=
              { e2 with
                book := e2.book.withSide os (e2.book.sideOf os).findNextBest }
            MatchingEngine.matchLoopU fuel e3 o2 fills
        else some (e, o, fills)

/-!  SPSC ring buffer (crates/titan-ring/src/lib.rs), modelled for the
single-threaded (sequential) executions the spec's scenario describes.
The four cursors (two real, two cached mirrors) are `Nat`; the
`MaybeUninit<T>` slot array is `Nat → Option α` with `none` for
never-written slots, so a consumed value surfaces as the `Option` stored
at the slot. -/

/-- The state of `SpscRing<T, N>` (titan-ring lib.rs). -/
structure RingState (α : Type) (N : Nat) where
  write_cursor : Nat
  cached_read : Nat
  read_cursor : Nat
  cached_write : Nat
  buffer : Nat → Option α

/-- `SpscRing::new` (titan-ring lib.rs): zero cursors, uninitialised
slots. -/
def RingState.mkRing (α : Type) (N : Nat) : RingState α N :=
  { write_cursor := 0, cached_read := 0, read_cursor := 0,
    cached_write := 0, buffer := fun _ => none }

/-- `Producer::try_publish` (titan-ring lib.rs). The source first checks
fullness against the cached read cursor, refreshing the cache from the
real cursor only on an apparent miss, and returns `false` only if the
refreshed check still shows a full ring; otherwise it writes the slot at
`write_pos & (N-1)` and advances the write cursor. The conditional
refresh is written here once before a single recheck, which takes the
same branches on the same states. -/
def tryPublish {α : Type} {N : Nat} (s : RingState α N) (v : α) :
    Bool × RingState α N :=
  let wp := s.write_cursor
  let s1 :=
    if N ≤ wp - s.cached_read then { s with cached_read := s.read_cursor }
    else s
  if N ≤ wp - s1.cached_read then (false, s1)
  else
    (true,
      { s1 with
        buffer := fun i =>
          if i = (wp &&& (N - 1)) then some v else s1.buffer i,
        write_cursor := wp + 1 })

/-- `Consumer::try_consume` (titan-ring lib.rs), mirror image of
`tryPublish`: emptiness is checked against the cached write cursor with a
refresh on an apparent miss; on success the slot at `read_pos & (N-1)` is
read and the read cursor advances. -/
def tryConsume {α : Type} {N : Nat} (s : RingState α N) :
    Option α × RingState α N :=
  let rp := s.read_cursor
  let s1 :=
    if s.cached_write ≤ rp then { s with cached_write := s.write_cursor }
    else s
  if s1.cached_write ≤ rp then (none, s1)
  else
    (s1.buffer (rp &&& (N - 1)), { s1 with read_cursor := rp + 1 })

/-- Publish a list of values in order with `try_publish`, collecting the
success flags. -/
def publishAll {α : Type} {N : Nat} (s : RingState α N) :
    List α → List Bool × RingState α N
  | [] => ([], s)
  | v :: vs =>
    let p := tryPublish s v
    let rest := publishAll p.2 vs
    (p.1 :: rest.1, rest.2)

/-- Consume `n` times with `try_consume`, collecting the results. -/
def consumeN {α : Type} {N : Nat} (s : RingState α N) :
    Nat → List (Option α) × RingState α N
  | 0 => ([], s)
  | n + 1 =>
    let c := tryConsume s
    let rest := consumeN c.2 n
    (c.1 :: rest.1, rest.2)

/-!  Concrete scenario states used by the claim theorems. -/

/-- Fresh engine: symbol 1, pool capacity `2^2 = 4`, base price 0. -/
def engEmpty : MatchingEngine := MatchingEngine.mkEngine 1 2 0

/-- Resting sell, 100 ticks, quantity 100. -/
def ordSell100x100 : Order :=
  Order.new 1 1 .Sell .Limit (Price.fromTicks 100) 100 0

/-- Crossing buy, 100 ticks, quantity 100. -/
def ordBuy100x100 : Order :=
  Order.new 2 1 .Buy .Limit (Price.fromTicks 100) 100 0

/-- The engine after the spec's "clean cross": submit the sell, then the
fully matching buy. -/
def engAfterCleanCross : MatchingEngine :=
  stepEngine (stepEngine engEmpty ordSell100x100 1) ordBuy100x100 2

/-- A non-crossing buy limit (100 ticks, quantity 10). -/
def ordBuyRest : Order := Order.new 1 1 .Buy .Limit (Price.fromTicks 100) 10 0

/-- Engine with exactly that one buy resting (handle 0). -/
def engC1Rest : MatchingEngine := stepEngine engEmpty ordBuyRest 1

/-- Engine with pool capacity `2^0 = 1`. -/
def engPool1 : MatchingEngine := MatchingEngine.mkEngine 1 0 0

/-- Sell limit, 100 ticks, qty 10. -/
def ordC2Sell100 : Order :=
  Order.new 1 1 .Sell .Limit (Price.fromTicks 100) 10 0

/-- Buy limit, 100 ticks, qty 10 (fully consumes the sell). -/
def ordC2Buy100 : Order :=
  Order.new 2 1 .Buy .Limit (Price.fromTicks 100) 10 0

/-- Sell limit, 200 ticks, qty 10 (fills the 1-slot pool again). -/
def ordC2Sell200 : Order :=
  Order.new 3 1 .Sell .Limit (Price.fromTicks 200) 10 0

/-- Buy limit, 150 ticks, qty 5: crosses the stale best-ask pointer at
100 ticks, triggers `find_next_best`, then must rest with the pool full. -/
def ordC2Buy150 : Order :=
  Order.new 4 1 .Buy .Limit (Price.fromTicks 150) 5 0

/-- The capacity-1 engine after the three submissions above: ask level
200 holds one order, the pool is full, and `asks.best_idx` is the stale
index 100 of an emptied level. -/
def engC2Three : MatchingEngine :=
  stepEngine (stepEngine (stepEngine engPool1 ordC2Sell100 1) ordC2Buy100 2)
    ordC2Sell200 3

/-- A price level holding `MAX_ORDERS_PER_LEVEL` orders (handles
0..1023, one unit each). -/
def fullLevel : PriceLevel :=
  { total_qty := MAX_ORDERS_PER_LEVEL, orders := List.range 1024 }

/-- Engine whose ask level at index 100 (price 100 ticks) is saturated
with 1024 resting sells while the pool still has 1024 free slots. -/
def engC3 : MatchingEngine :=
  { book :=
      { bids := BookSide.mkSide .Buy 0,
        asks :=
          { levels := [(100, fullLevel)], best_idx := some 100,
            side := .Sell, base_price := 0, order_count := 1024,
            total_qty := 1024 },
        sequence := 0 },
    pool :=
      { slots := fun i =>
          if i < 1024 then
            some (Order.new (i + 1) 1 .Sell .Limit (Price.fromTicks 100) 1 0)
          else none,
        free_list := (List.range 2048).drop 1024,
        capacity := 2048, active_count := 1024 },
    symbol := 1 }

/-- One more sell at the saturated price. -/
def ordC3Sell : Order :=
  Order.new 5000 1 .Sell .Limit (Price.fromTicks 100) 1 0

/-- 65 sell limits at 100 ticks, one unit each
(one more than `MAX_FILLS_PER_ORDER`). -/
def sellsC5 : List Order :=
  (List.range 65).map fun i =>
    Order.new (i + 1) 1 .Sell .Limit (Price.fromTicks 100) 1 0

/-- Engine (pool capacity 128) with those 65 sells resting. -/
def engC5 : MatchingEngine :=
  sellsC5.foldl (fun e o => stepEngine e o 1) (MatchingEngine.mkEngine 1 7 0)

/-- Buy taker whose full fill takes 65 maker executions. -/
def ordC5Taker : Order :=
  Order.new 100 1 .Buy .Limit (Price.fromTicks 100) 65 0

/-- An order sitting in pool slot 2 of the engine below. -/
def ordC10 : Order := Order.new 9 1 .Buy .Limit (Price.fromTicks 100) 7 0

/-- Capacity-4 engine whose slot 2 was written and then deallocated
(handle 2 is on the free list; no order is live). -/
def engC10 : MatchingEngine :=
  { book := OrderBook.mkBook 0,
    pool :=
      { slots := fun i => if i = 2 then some ordC10 else none,
        free_list := [2, 0, 1, 3], capacity := 4, active_count := 0 },
    symbol := 1 }

/-- A zero-quantity order (rejected in validation). -/
def ordZeroQty : Order := Order.new 7 1 .Buy .Limit (Price.fromTicks 100) 0 0

/-- A buy IOC at price zero (market-order signal), quantity 7. -/
def ordBuyIOCZero : Order := Order.new 3 1 .Buy .IOC 0 7 0

/-- Fresh capacity-4 ring of `Nat` slots. -/
def ringR0 : RingState Nat 4 := RingState.mkRing Nat 4

/-- First publish burst 1..=4. -/
def ringP1 : List Bool × RingState Nat 4 := publishAll ringR0 [1, 2, 3, 4]

/-- First drain of four. -/
def ringC1 : List (Option Nat) × RingState Nat 4 := consumeN ringP1.2 4

/-- Second publish burst 5..=8 (wraps around the slot array). -/
def ringP2 : List Bool × RingState Nat 4 := publishAll ringC1.2 [5, 6, 7, 8]

/-- Second drain of four. -/
def ringC2 : List (Option Nat) × RingState Nat 4 := consumeN ringP2.2 4

/-!  Theorems. -/

/-- Writing back a side and projecting the same side is the identity. -/
theorem sideOf_withSide (b : OrderBook) (s : Side) (x : BookSide) :
    (b.withSide s x).sideOf s = x := by
  cases s <;> rfl

/-- `withSide` never touches the sequence counter. -/
theorem sequence_withSide (b : OrderBook) (s : Side) (x : BookSide) :
    (b.withSide s x).sequence = b.sequence := by
  cases s <;> rfl

/-- C1: `cancel_order` on the live handle of a resting order does NOT
remove the order from its price level: after submitting a non-crossing
buy limit (handle 0) into an empty book and cancelling it, the cancel
returns the order, but the level at index 100 still queues handle 0 and
`best_idx` still points there, so the book does not return to its prior
empty state — the claim's round-trip fails on the code. -/
theorem C1_cancel_leaves_stale_handle_in_level :
    resultOf engEmpty ordBuyRest 1 = some (.Resting 0) ∧
    (engC1Rest.cancelOrder 0).map (fun p => p.1) =
      some (some { ordBuyRest with timestamp := 1 }) ∧
    (engC1Rest.cancelOrder 0).map
        (fun p => (p.2.book.bids.best_idx,
                   lookupLevel p.2.book.bids.levels 100,
                   p.2.book.bids.order_count, p.2.book.bids.total_qty,
                   p.2.pool.active_count)) =
      some (some 100, some { total_qty := 0, orders := [0] }, 0, 0, 0) := by
  decide

/-- C2 counterexample: on the capacity-1 engine `engC2Three` (stale best
ask at index 100, real liquidity at 200, pool full), submitting a buy at
150 ticks is Rejected with `PoolExhausted`, yet the submission moved
`asks.best_idx` from 100 to 200 — a rejection that does not leave the
book unchanged. -/
theorem C2_rejected_submit_mutates_book :
    (engC2Three.submitOrder ordC2Buy150 4).map
        (fun p => (p.1, p.2.book.asks.best_idx)) =
      some (.Rejected .PoolExhausted, some 200) ∧
    engC2Three.book.asks.best_idx = some 100 := by
  decide

set_option maxRecDepth 40000 in
/-- C3: an order that must rest at a price whose level already holds
`MAX_ORDERS_PER_LEVEL` orders is rejected, but with reason
`PoolExhausted`, not `BookFull` — `add_to_book` folds the failed
`add_order` into the same `None` as pool exhaustion, and the engine maps
every such `None` to `Rejected(PoolExhausted)`; the pool demonstrably
still has free slots. -/
theorem C3_full_level_rejected_as_pool_exhausted :
    resultOf engC3 ordC3Sell 9 = some (.Rejected .PoolExhausted) ∧
    resultOf engC3 ordC3Sell 9 ≠ some (.Rejected .BookFull) ∧
    engC3.pool.free_list ≠ [] := by
  decide

/-- C4: after the spec's clean cross (sell 100@100t then fully matching
buy), a completed submit returns `Filled`, yet `asks.best_idx` still
points at index 100 whose level is empty — the matching loop breaks on a
zero remaining quantity before running `find_next_best`, violating the
invariant that a present `best_idx` points to a non-empty level. -/
theorem C4_clean_cross_leaves_best_idx_on_empty_level :
    resultOf (stepEngine engEmpty ordSell100x100 1) ordBuy100x100 2 =
      some (.Filled [{ maker_order_id := 1, taker_order_id := 2,
                       price := 10000, quantity := 100,
                       maker_side := .Sell, symbol := 1, timestamp := 2 }]) ∧
    engAfterCleanCross.book.asks.best_idx = some 100 ∧
    lookupLevel engAfterCleanCross.book.asks.levels 100 =
      some { total_qty := 0, orders := [] } := by
  decide

/-- C6 counterexample: a state-changing submit (the order rests, handle
0) leaves the order book's sequence counter at its initial value 0
instead of incrementing it — the engine never calls `next_sequence`. -/
theorem C6_sequence_not_incremented_by_submit :
    resultOf engEmpty ordBuyRest 1 = some (.Resting 0) ∧
    ¬ (stepEngine engEmpty ordBuyRest 1).book.sequence =
        engEmpty.book.sequence + 1 := by
  decide

/-- C8: for every tick count below the saturation bound,
`from_ticks` then `to_ticks` is the identity. -/
theorem C8_price_ticks_roundtrip (n : Nat) (h : n ≤ U64MAX / TICK_SIZE) :
    Price.toTicks (Price.fromTicks n) = n := by
  unfold Price.fromTicks Price.toTicks
  have hmul : n * TICK_SIZE ≤ U64MAX :=
    calc n * TICK_SIZE ≤ (U64MAX / TICK_SIZE) * TICK_SIZE :=
          Nat.mul_le_mul_right _ h
    _ ≤ U64MAX := Nat.div_mul_le_self _ _
  rw [min_eq_left hmul, Nat.mul_div_cancel _ (by decide : 0 < TICK_SIZE)]

/-- C8 witness: the round-trip at `n = 123`. -/
theorem C8_price_ticks_roundtrip_witness :
    123 ≤ U64MAX / TICK_SIZE ∧
    Price.toTicks (Price.fromTicks 123) = 123 :=
  ⟨by decide, C8_price_ticks_roundtrip 123 (by decide)⟩

/-- C10 counterexample: on the capacity-4 engine `engC10`, the handle 10
is neither the reserved invalid value nor in range; `cancel_order`
neither returns absence-by-contract nor a removed order — it panics on
the out-of-bounds slot read (modelled as the outer `none`), refuting the
claim that every handle other than `0xFFFF_FFFF` returns `Some`. -/
theorem C10_cancel_out_of_range_panics :
    engC10.cancelOrder 10 = none ∧ 10 ≠ INVALID_HANDLE := by
  exact ⟨rfl, by decide⟩

/-- C10 (amended): `cancel_order` returns absence for the reserved
invalid handle; for every handle whose index is in range and whose slot
was ever written — live or already deallocated, with no liveness check —
it returns the slot's order, pushes the handle onto the free list,
decrements `active_count` as a wrapping `u32` (so a double-free at
`active_count = 0` wraps to `u32::MAX` in release; debug builds assert),
reduces the side's total quantity by the slot's remaining quantity and
decrements the side's order count. (Out-of-range handles panic on the
slot read, per the counterexample.) -/
theorem C10_cancel_in_range_ignores_liveness (e : MatchingEngine) (h : Nat)
    (ord : Order) (hcap : h < e.pool.capacity) (hinv : h ≠ INVALID_HANDLE)
    (hslot : e.pool.slots h = some ord) :
    (∀ e2 : MatchingEngine, e2.cancelOrder INVALID_HANDLE = some (none, e2)) ∧
    ∃ e3, e.cancelOrder h = some (some ord, e3) ∧
      e3.pool.free_list = h :: e.pool.free_list ∧
      e3.pool.active_count = (e.pool.active_count + U32MOD - 1) % U32MOD ∧
      (e3.book.sideOf ord.side).total_qty =
        (e.book.sideOf ord.side).total_qty - ord.remaining_qty ∧
      (e3.book.sideOf ord.side).order_count =
        (e.book.sideOf ord.side).order_count - 1 := by
  constructor
  · intro e2
    simp [MatchingEngine.cancelOrder]
  · have hget : e.pool.get h = some ord := by
      simp [OrderPool.get, hcap, hslot]
    unfold MatchingEngine.cancelOrder
    rw [if_neg hinv, hget]
    refine ⟨_, rfl, rfl, rfl, ?_, ?_⟩ <;>
      · rw [sideOf_withSide]
        split <;>
          simp [BookSide.reduceQty, BookSide.decOrderCount] <;>
          split <;> simp

/-- C10 witness: cancelling the deallocated (not live) in-range handle 2
of `engC10` still returns the stale order and performs the updates;
since `engC10` has `active_count = 0`, this double-deallocation wraps
the counter to `u32::MAX` (release behaviour; debug builds assert). -/
theorem C10_cancel_witness :
    2 < engC10.pool.capacity ∧ 2 ≠ INVALID_HANDLE ∧
    engC10.pool.slots 2 = some ordC10 ∧
    (engC10.pool.active_count + U32MOD - 1) % U32MOD = 4294967295 ∧
    ((∀ e2 : MatchingEngine,
        e2.cancelOrder INVALID_HANDLE = some (none, e2)) ∧
      ∃ e3, engC10.cancelOrder 2 = some (some ordC10, e3) ∧
        e3.pool.free_list = 2 :: engC10.pool.free_list ∧
        e3.pool.active_count =
          (engC10.pool.active_count + U32MOD - 1) % U32MOD ∧
        (e3.book.sideOf ordC10.side).total_qty =
          (engC10.book.sideOf ordC10.side).total_qty -
            ordC10.remaining_qty ∧
        (e3.book.sideOf ordC10.side).order_count =
          (engC10.book.sideOf ordC10.side).order_count - 1) :=
  ⟨by decide, by decide, rfl, by decide,
    C10_cancel_in_range_ignores_liveness engC10 2 ordC10 (by decide)
      (by decide) rfl⟩

/-- `match_one_at_best` never touches the book's sequence counter. -/
theorem matchOneAtBest_sequence (e : MatchingEngine) (ms : Side) (t : Order)
    (p : Nat) (f : Option Fill) (t2 : Order) (e2 : MatchingEngine)
    (hm : e.matchOneAtBest ms t p = some (f, t2, e2)) :
    e2.book.sequence = e.book.sequence := by
  simp only [MatchingEngine.matchOneAtBest] at hm
  repeat' split at hm
  all_goals first
    | (cases hm; rfl)
    | (cases hm; simp [sequence_withSide])
    | cases hm

/-- The matching loop never touches the book's sequence counter. -/
theorem matchLoop_sequence :
    ∀ (fuel : Nat) (e : MatchingEngine) (o : Order) (fills : List Fill)
      (e2 : MatchingEngine) (o2 : Order) (fs2 : List Fill),
    MatchingEngine.matchLoop fuel e o fills = some (e2, o2, fs2) →
    e2.book.sequence = e.book.sequence := by
  intro fuel
  induction fuel with
  | zero =>
    intro e o fills e2 o2 fs2 hm
    simp only [MatchingEngine.matchLoop] at hm
    cases hm
    rfl
  | succ n ih =>
    intro e o fills e2 o2 fs2 hm
    simp only [MatchingEngine.matchLoop] at hm
    repeat' split at hm
    all_goals first
      | (cases hm; rfl)
      | cases hm
      | (exact (ih _ _ _ _ _ _ hm).trans
          (matchOneAtBest_sequence _ _ _ _ _ _ _ (by assumption)))
      | (exact (ih _ _ _ _ _ _ hm).trans
          ((sequence_withSide _ _ _).trans
            (matchOneAtBest_sequence _ _ _ _ _ _ _ (by assumption))))

/-- `add_to_book` never touches the book's sequence counter. -/
theorem addToBook_sequence (e : MatchingEngine) (o : Order)
    (r : Option Nat) (e2 : MatchingEngine)
    (ha : e.addToBook o = (r, e2)) :
    e2.book.sequence = e.book.sequence := by
  simp only [MatchingEngine.addToBook] at ha
  repeat' split at ha
  all_goals first
    | (cases ha; rfl)
    | (cases ha; exact sequence_withSide _ _ _)

/-- C6 (amended): the engine never advances the book's sequence counter —
`submit_order` and `cancel_order` leave it at its prior value on every
completed call, state-changing or not; `next_sequence` exists but is
never invoked by the engine. -/
theorem C6_engine_preserves_sequence :
    (∀ (e : MatchingEngine) (o : Order) (ts : Nat) (r : OrderResult)
        (e2 : MatchingEngine), e.submitOrder o ts = some (r, e2) →
        e2.book.sequence = e.book.sequence) ∧
    (∀ (e : MatchingEngine) (h : Nat) (r : Option Order)
        (e2 : MatchingEngine), e.cancelOrder h = some (r, e2) →
        e2.book.sequence = e.book.sequence) := by
  constructor
  · intro e o ts r e2 hs
    simp only [MatchingEngine.submitOrder] at hs
    repeat' split at hs
    all_goals first
      | (cases hs; rfl)
      | (cases hs
         exact matchLoop_sequence _ _ _ _ _ _ _ (by assumption))
      | (cases hs
         exact (addToBook_sequence _ _ _ _ (by assumption)).trans
           (matchLoop_sequence _ _ _ _ _ _ _ (by assumption)))
      | cases hs
  · intro e h r e2 hc
    simp only [MatchingEngine.cancelOrder] at hc
    repeat' split at hc
    all_goals first
      | (cases hc; rfl)
      | (cases hc; exact sequence_withSide _ _ _)
      | cases hc

/-- C6 witness: the resting submit of `ordBuyRest` keeps the sequence
counter at its prior value. -/
theorem C6_engine_preserves_sequence_witness :
    engEmpty.submitOrder ordBuyRest 1 = some (.Resting 0, engC1Rest) ∧
    engC1Rest.book.sequence = engEmpty.book.sequence :=
  ⟨rfl, C6_engine_preserves_sequence.1 engEmpty ordBuyRest 1 (.Resting 0)
    engC1Rest rfl⟩

/-- C2 (amended): rejections decided before the matching step
(`InvalidQuantity`, `InvalidPrice`, `PostOnlyWouldMatch`,
`InsufficientLiquidity`) leave the engine — book sides, aggregate
quantities, order counts, best indices, and pool — exactly unchanged;
only the post-match `PoolExhausted` rejection can leave the book mutated
(per the counterexample). -/
theorem C2_prematch_rejections_leave_engine_unchanged
    (e : MatchingEngine) (o : Order) (ts : Nat) (r : RejectReason)
    (e2 : MatchingEngine)
    (hsub : e.submitOrder o ts = some (.Rejected r, e2))
    (hr : r ≠ RejectReason.PoolExhausted) : e2 = e := by
  simp only [MatchingEngine.submitOrder] at hsub
  repeat' split at hsub
  all_goals first
    | (cases hsub; rfl)
    | (cases hsub; exact absurd rfl hr)
    | cases hsub

/-- C2 witness: a zero-quantity submit is rejected pre-match and the
engine is unchanged. -/
theorem C2_prematch_rejection_witness :
    engEmpty.submitOrder ordZeroQty 1 =
      some (.Rejected .InvalidQuantity, engEmpty) ∧
    RejectReason.InvalidQuantity ≠ RejectReason.PoolExhausted ∧
    engEmpty = engEmpty :=
  ⟨rfl, by decide,
    C2_prematch_rejections_leave_engine_unchanged engEmpty ordZeroQty 1
      .InvalidQuantity engEmpty rfl (by decide)⟩

/-- One step of the matching loop for a buy taker that does not cross
the best ask: the loop stops with no fill and no state change. -/
theorem matchLoop_buy_no_cross (fuel : Nat) (hf : fuel ≠ 0)
    (e : MatchingEngine) (o : Order) (fills : List Fill)
    (h0 : o.remaining_qty ≠ 0) (hside : o.side = .Buy) (bp : Nat)
    (hbp : e.book.asks.bestPrice = some bp) (hcross : ¬ bp ≤ o.price) :
    MatchingEngine.matchLoop fuel e o fills = some (e, o, fills) := by
  cases fuel with
  | zero => exact absurd rfl hf
  | succ n =>
    simp only [MatchingEngine.matchLoop]
    rw [if_neg h0]
    simp [hside, hbp, hcross]

/-- C9: a Buy IOC order with price zero passes validation (IOC may carry
a zero price) but `taker.price ≥ best_ask` is false whenever the best ask
price is nonzero, so the matching loop executes no fills and the submit
returns `Cancelled` with zero filled quantity and no fill records,
leaving the engine unchanged, regardless of available ask liquidity. -/
theorem C9_buy_ioc_zero_price_never_crosses
    (e : MatchingEngine) (o : Order) (ts2 bp : Nat)
    (hside : o.side = .Buy) (htif : o.order_type = .IOC)
    (hprice : o.price = 0) (hq : o.remaining_qty ≠ 0)
    (horig : o.original_qty = o.remaining_qty)
    (hbp : e.book.asks.bestPrice = some bp) (hnz : bp ≠ 0) :
    e.submitOrder o ts2 = some (.Cancelled 0 [], e) := by
  have hfne : e.loopFuel ≠ 0 := by
    simp [MatchingEngine.loopFuel]
  simp only [MatchingEngine.submitOrder]
  rw [if_neg hq]
  rw [if_neg (by simp [htif])]
  rw [if_neg (by simp [htif])]
  rw [if_neg (by simp [htif])]
  rw [matchLoop_buy_no_cross e.loopFuel hfne e _ [] (by simpa using hq)
    (by simpa using hside) bp (by simpa using hbp)
    (by simp [hprice, Nat.le_zero, hnz])]
  simp [hq, htif, Order.filledQty, horig, Nat.sub_self]

/-- C9 witness: against a resting ask at 100 ticks, the zero-priced buy
IOC of quantity 7 is cancelled unfilled with no fills. -/
theorem C9_buy_ioc_zero_price_witness :
    (stepEngine engEmpty ordSell100x100 1).book.asks.bestPrice =
      some 10000 ∧
    (stepEngine engEmpty ordSell100x100 1).submitOrder ordBuyIOCZero 2 =
      some (.Cancelled 0 [], stepEngine engEmpty ordSell100x100 1) :=
  ⟨by decide,
    C9_buy_ioc_zero_price_never_crosses
      (stepEngine engEmpty ordSell100x100 1) ordBuyIOCZero 2 10000
      rfl rfl rfl (by decide) rfl (by decide) (by decide)⟩

/-- The state evolution of the matching loop is independent of the fill
records: the capped loop equals the all-recording loop with the fill list
truncated to `MAX_FILLS_PER_ORDER`. -/
theorem matchLoop_fills_take :
    ∀ (fuel : Nat) (e : MatchingEngine) (o : Order) (u : List Fill),
    MatchingEngine.matchLoop fuel e o (u.take MAX_FILLS_PER_ORDER) =
      (MatchingEngine.matchLoopU fuel e o u).map
        (fun r => (r.1, r.2.1, r.2.2.take MAX_FILLS_PER_ORDER)) := by
  intro fuel
  induction fuel with
  | zero =>
    intro e o u
    simp [MatchingEngine.matchLoop, MatchingEngine.matchLoopU]
  | succ n ih =>
    intro e o u
    simp only [MatchingEngine.matchLoop, MatchingEngine.matchLoopU]
    by_cases h0 : o.remaining_qty = 0
    · simp [h0]
    · rw [if_neg h0, if_neg h0]
      cases hside : o.side
      all_goals (
        first
        | (cases hbp : e.book.asks.bestPrice with
           | none => simp [hbp]
           | some bp =>
             simp only [hbp]
             by_cases hc : bp ≤ o.price
             case neg => simp [hc]
             case pos =>
               simp only [hc, decide_true_eq_true, if_true]
               cases hone : e.matchOneAtBest Side.Buy.opposite o bp with
               | none => simp [hone]
               | some trip =>
                 obtain ⟨f, o2, e2⟩ := trip
                 cases f with
                 | none => simp only [hone, Option.map]; exact ih _ _ _
                 | some fill =>
                   simp only [hone]
                   rw [← ih e2 o2 (u ++ [fill])]
                   congr 1
                   by_cases hu : u.length < MAX_FILLS_PER_ORDER
                   · rw [if_pos (by simp [List.length_take]; omega)]
                     rw [List.take_all_of_le (Nat.le_of_lt hu),
                         List.take_all_of_le (by simp; omega)]
                   · rw [if_neg (by simp [List.length_take]; omega)]
                     rw [List.take_append_eq_append_take,
                         Nat.sub_eq_zero_of_le (Nat.le_of_not_lt hu)]
                     simp)
        | (cases hbp : e.book.bids.bestPrice with
           | none => simp [hbp]
           | some bp =>
             simp only [hbp]
             by_cases hc : o.price ≤ bp
             case neg => simp [hc]
             case pos =>
               simp only [hc, decide_true_eq_true, if_true]
               cases hone : e.matchOneAtBest Side.Sell.opposite o bp with
               | none => simp [hone]
               | some trip =>
                 obtain ⟨f, o2, e2⟩ := trip
                 cases f with
                 | none => simp only [hone, Option.map]; exact ih _ _ _
                 | some fill =>
                   simp only [hone]
                   rw [← ih e2 o2 (u ++ [fill])]
                   congr 1
                   by_cases hu : u.length < MAX_FILLS_PER_ORDER
                   · rw [if_pos (by simp [List.length_take]; omega)]
                     rw [List.take_all_of_le (Nat.le_of_lt hu),
                         List.take_all_of_le (by simp; omega)]
                   · rw [if_neg (by simp [List.length_take]; omega)]
                     rw [List.take_append_eq_append_take,
                         Nat.sub_eq_zero_of_le (Nat.le_of_not_lt hu)]
                     simp))

set_option maxRecDepth 40000 in
/-- C5: fill recording never affects execution — the matching loop's
engine state and taker evolve exactly as if every fill were recorded,
and the recorded fills are the first `MAX_FILLS_PER_ORDER` of the full
sequence (the rest are silently dropped); concretely, a taker crossing
65 one-unit makers is fully filled, all 65 makers are executed and
removed (pool drained, ask side emptied), yet only 64 fill records are
returned. -/
theorem C5_fill_recording_does_not_affect_execution :
    (∀ (fuel : Nat) (e : MatchingEngine) (o : Order) (u : List Fill),
      MatchingEngine.matchLoop fuel e o (u.take MAX_FILLS_PER_ORDER) =
        (MatchingEngine.matchLoopU fuel e o u).map
          (fun r => (r.1, r.2.1, r.2.2.take MAX_FILLS_PER_ORDER))) ∧
    (engC5.submitOrder ordC5Taker 99).map
        (fun p => ((p.1.fillsOf).length, p.2.pool.active_count,
                   p.2.book.asks.total_qty, p.2.book.asks.order_count)) =
      some (64, 0, 0, 0) :=
  ⟨matchLoop_fills_take, by decide⟩

/-- Bit masking with `0b11` is reduction modulo the ring capacity 4. -/
theorem land_three (x : Nat) : x &&& 3 = x % 4 := by
  apply Nat.eq_of_testBit_eq
  intro i
  rw [Nat.testBit_land]
  have h4 : (4 : Nat) = 2 ^ 2 := rfl
  have h3 : (3 : Nat) = 2 ^ 2 - 1 := rfl
  rw [h4, h3, Nat.testBit_mod_two_pow, Nat.testBit_two_pow_sub_one,
    Bool.and_comm]

/-- `try_publish` succeeds whenever the ring has room (given the cached
read cursor never runs ahead of the real one), bumping the write cursor
and writing the slot at `write & 3`; the cached read cursor stays at or
below the real read cursor. -/
theorem tryPublish_success (s : RingState Nat 4) (v : Nat)
    (hcr : s.cached_read ≤ s.read_cursor)
    (hread : s.read_cursor ≤ s.write_cursor)
    (hroom : s.write_cursor - s.read_cursor < 4) :
    ∃ cr, cr ≤ s.read_cursor ∧
      tryPublish s v =
        (true,
          { write_cursor := s.write_cursor + 1, cached_read := cr,
            read_cursor := s.read_cursor, cached_write := s.cached_write,
            buffer := fun i =>
              if i = (s.write_cursor &&& 3) then some v
              else s.buffer i }) := by
  simp only [tryPublish]
  by_cases h1 : 4 ≤ s.write_cursor - s.cached_read
  · rw [if_pos h1]
    refine ⟨s.read_cursor, Nat.le_refl _, ?_⟩
    rw [if_neg (by simp; omega)]
  · rw [if_neg h1]
    refine ⟨s.cached_read, hcr, ?_⟩
    rw [if_neg h1]

/-- `try_consume` succeeds whenever data is available (given the cached
write cursor never runs ahead of the real one), returning the slot at
`read & 3` and bumping the read cursor. -/
theorem tryConsume_success (s : RingState Nat 4)
    (hcw : s.cached_write ≤ s.write_cursor)
    (havail : s.read_cursor < s.write_cursor) :
    ∃ cw, cw ≤ s.write_cursor ∧
      tryConsume s =
        (s.buffer (s.read_cursor &&& 3),
          { write_cursor := s.write_cursor, cached_read := s.cached_read,
            read_cursor := s.read_cursor + 1, cached_write := cw,
            buffer := s.buffer }) := by
  simp only [tryConsume]
  by_cases h1 : s.cached_write ≤ s.read_cursor
  · rw [if_pos h1]
    refine ⟨s.write_cursor, Nat.le_refl _, ?_⟩
    rw [if_neg (by simp; omega)]
  · rw [if_neg h1]
    refine ⟨s.cached_write, hcw, ?_⟩
    rw [if_neg h1]

/-- Publishing a burst that fits the remaining room succeeds throughout,
advances only the write cursor, stores the values at consecutive masked
slots, and leaves every other slot untouched. -/
theorem publishAll_spec (vs : List Nat) :
    ∀ (s : RingState Nat 4),
    s.cached_read ≤ s.read_cursor →
    s.read_cursor ≤ s.write_cursor →
    s.write_cursor - s.read_cursor + vs.length ≤ 4 →
    (publishAll s vs).1 = List.replicate vs.length true ∧
    (publishAll s vs).2.write_cursor = s.write_cursor + vs.length ∧
    (publishAll s vs).2.read_cursor = s.read_cursor ∧
    (publishAll s vs).2.cached_write = s.cached_write ∧
    (publishAll s vs).2.cached_read ≤ s.read_cursor ∧
    (∀ k, k < vs.length →
      (publishAll s vs).2.buffer ((s.write_cursor + k) &&& 3) =
        vs.get? k) ∧
    (∀ i, (∀ k, k < vs.length → i ≠ (s.write_cursor + k) &&& 3) →
      (publishAll s vs).2.buffer i = s.buffer i) := by
  induction vs with
  | nil =>
    intro s hcr hrw hroom
    simp [publishAll, hcr]
  | cons v rest ih =>
    intro s hcr hrw hroom
    obtain ⟨cr, hcrle, hpub⟩ := tryPublish_success s v hcr hrw
      (by simp at hroom; omega)
    simp only [publishAll, hpub]
    have hlen : rest.length + 1 ≤ 4 := by simp at hroom; omega
    obtain ⟨hflags, hw, hr, hcw, hcr2, hbuf, hold⟩ :=
      ih { write_cursor := s.write_cursor + 1, cached_read := cr,
           read_cursor := s.read_cursor, cached_write := s.cached_write,
           buffer := fun i =>
             if i = (s.write_cursor &&& 3) then some v else s.buffer i }
        (by simpa using hcrle)
        (by simp; omega)
        (by simp; simp at hroom; omega)
    refine ⟨by simp [hflags, List.replicate], by simp [hw]; omega,
      by simp [hr], by simp [hcw], le_trans hcr2 (le_refl _), ?_, ?_⟩
    · intro k hk
      cases k with
      | zero =>
        rw [hold]
        · simp
        · intro k2 hk2
          simp only []
          rw [land_three, land_three]
          simp at hroom
          omega
      | succ k2 =>
        have : s.write_cursor + (k2 + 1) = (s.write_cursor + 1) + k2 := by
          omega
        rw [this]
        rw [hbuf k2 (by simp at hk; omega)]
        simp
    · intro i hi
      rw [hold]
      · simp only []
        rw [if_neg (by simpa using hi 0 (by simp))]
      · intro k hk
        have : (s.write_cursor + 1) + k = s.write_cursor + (k + 1) := by
          omega
        rw [this]
        exact hi (k + 1) (by simp; omega)

/-- Draining `n` available items succeeds throughout, returns the masked
slots from the read cursor onward in order, and advances only the read
cursor. -/
theorem consumeN_spec (n : Nat) :
    ∀ (s : RingState Nat 4),
    s.cached_write ≤ s.write_cursor →
    n ≤ s.write_cursor - s.read_cursor →
    (consumeN s n).1 =
      (List.range n).map (fun k => s.buffer ((s.read_cursor + k) &&& 3)) ∧
    (consumeN s n).2.read_cursor = s.read_cursor + n ∧
    (consumeN s n).2.write_cursor = s.write_cursor ∧
    (consumeN s n).2.cached_read = s.cached_read ∧
    (consumeN s n).2.cached_write ≤ s.write_cursor ∧
    (consumeN s n).2.buffer = s.buffer := by
  induction n with
  | zero =>
    intro s hcw havail
    simp [consumeN, hcw]
  | succ m ih =>
    intro s hcw havail
    obtain ⟨cw, hcwle, hcons⟩ := tryConsume_success s hcw (by omega)
    simp only [consumeN, hcons]
    obtain ⟨hvals, hr, hw, hcr, hcw2, hbuf⟩ :=
      ih { write_cursor := s.write_cursor, cached_read := s.cached_read,
           read_cursor := s.read_cursor + 1, cached_write := cw,
           buffer := s.buffer }
        (by simpa using hcwle)
        (by simp; omega)
    refine ⟨?_, by simp [hr]; omega, by simp [hw], by simp [hcr],
      hcw2, hbuf⟩
    rw [hvals]
    rw [List.range_succ_eq_map]
    simp only [List.map_cons, List.map_map]
    refine congrArg₂ _ (by simp) ?_
    apply List.map_congr_left
    intro k hk
    simp only [Function.comp]
    have : s.read_cursor + 1 + k = s.read_cursor + (k + 1) := by omega
    rw [this]

/-- Reading a list positionally over its index range reproduces it. -/
theorem range_map_get (vs : List Nat) :
    (List.range vs.length).map (fun k => vs.get? k) = vs.map some := by
  induction vs with
  | nil => simp
  | cons v rest ih =>
    simp only [List.length_cons, List.range_succ_eq_map, List.map_cons,
      List.map_map]
    refine congrArg₂ _ rfl ?_
    rw [← ih]
    apply List.map_congr_left
    intro k hk
    simp [Function.comp]

/-- From any balanced ring state (drained, caches not ahead), a burst of
at most 4 publishes followed by as many consumes succeeds, is FIFO, and
re-establishes balance — so bursts compose across wrap-around. -/
theorem ring_round_trip (s : RingState Nat 4) (vs : List Nat)
    (hbal : s.read_cursor = s.write_cursor)
    (hcr : s.cached_read ≤ s.read_cursor)
    (hcw : s.cached_write ≤ s.write_cursor)
    (hlen : vs.length ≤ 4) :
    (publishAll s vs).1 = List.replicate vs.length true ∧
    (consumeN (publishAll s vs).2 vs.length).1 = vs.map some ∧
    (consumeN (publishAll s vs).2 vs.length).2.read_cursor =
      (consumeN (publishAll s vs).2 vs.length).2.write_cursor ∧
    (consumeN (publishAll s vs).2 vs.length).2.cached_read ≤
      (consumeN (publishAll s vs).2 vs.length).2.read_cursor ∧
    (consumeN (publishAll s vs).2 vs.length).2.cached_write ≤
      (consumeN (publishAll s vs).2 vs.length).2.write_cursor := by
  obtain ⟨hflags, hw, hr, hcw1, hcr1, hbuf, hold⟩ :=
    publishAll_spec vs s hcr (by omega) (by omega)
  obtain ⟨hvals, hr2, hw2, hcr2, hcw2, hbuf2⟩ :=
    consumeN_spec vs.length (publishAll s vs).2
      (by rw [hcw1]; omega)
      (by rw [hw, hr]; omega)
  refine ⟨hflags, ?_, by omega, by omega, by omega⟩
  rw [hvals, ← range_map_get]
  apply List.map_congr_left
  intro k hk
  rw [List.mem_range] at hk
  rw [hr, hbal, hbuf k hk]

/-- C7: on the capacity-4 SPSC ring operated sequentially, publishing
1..=4, draining, publishing 5..=8 (wrapping the slot array), and
draining again returns every value in publication order, and one more
`try_consume` on the drained ring returns absence; in general, from any
balanced ring state a publish burst of at most the capacity followed by
an equal drain is FIFO and leaves the ring balanced again. -/
theorem C7_ring_capacity_four_wraparound_fifo :
    (ringP1.1 = [true, true, true, true] ∧
     ringC1.1 = [some 1, some 2, some 3, some 4] ∧
     ringP2.1 = [true, true, true, true] ∧
     ringC2.1 = [some 5, some 6, some 7, some 8] ∧
     (tryConsume ringC2.2).1 = none) ∧
    (∀ (s : RingState Nat 4) (vs : List Nat),
      s.read_cursor = s.write_cursor →
      s.cached_read ≤ s.read_cursor →
      s.cached_write ≤ s.write_cursor →
      vs.length ≤ 4 →
      (publishAll s vs).1 = List.replicate vs.length true ∧
      (consumeN (publishAll s vs).2 vs.length).1 = vs.map some ∧
      (consumeN (publishAll s vs).2 vs.length).2.read_cursor =
        (consumeN (publishAll s vs).2 vs.length).2.write_cursor ∧
      (consumeN (publishAll s vs).2 vs.length).2.cached_read ≤
        (consumeN (publishAll s vs).2 vs.length).2.read_cursor ∧
      (consumeN (publishAll s vs).2 vs.length).2.cached_write ≤
        (consumeN (publishAll s vs).2 vs.length).2.write_cursor) := by
  constructor
  · exact ⟨by decide, by decide, by decide, by decide, by decide⟩
  · intro s vs h1 h2 h3 h4
    exact ring_round_trip s vs h1 h2 h3 h4

end Titan
